import Mathlib

/-!
Verification development for the `archive-django` repository's document
segmentation pipeline (`src/processing/services.py`, class `BarcodeOCRService`,
together with the `Upload`/`Group` models in `src/processing/models.py`).

The pipeline is embedded shallowly:

* A PDF document is a `Doc`: a page count plus two oracle functions giving,
  per page, the embedded text layer returned by `page.get_text("text")`
  (`none` models the call raising for an unreadable page) and the list of
  barcode payloads `pyzbar.decode` yields on the rendered page image.
* Filesystem and database effects are recorded as an explicit `Event` trace;
  the written size of an output PDF is an oracle `fsSize : List Nat → Nat`.
* Python's `int()` truncation of the nonnegative progress floats is modelled
  by exact natural-number floor division.
* Python's `str.strip()` is modelled by `pyStrip` (the strings involved
  carry only ASCII whitespace), and `len` on `str` by `String.length`
  (both count code points).

Two behaviours of the Python source are modelled exactly as written, because
they decide several properties below:

* `services.py` passes `re.IGNORECASE | re.ARABIC` as regex flags.  The `re`
  module has no attribute `ARABIC`, so evaluating the flag expression raises
  `AttributeError` before any pattern is matched; the enclosing
  `except Exception` handlers swallow it.  This is `reIgnorecaseArabicFlags`.
* `create_single_group` calls `Group.objects.create(..., name=group_name)`,
  but the `Group` model in `src/processing/models.py` declares no field or
  property called `name`, so Django's `Model.__init__` raises `TypeError`
  for the unexpected keyword argument.  This is `groupObjectsCreate`.

The method bodies of `services.py` are transcribed with their evident
class-method structure (several bodies appear de-indented in the file as
stored; the translation follows the call structure the module itself uses).
-/

namespace ArchiveDjango

/-- Python exception kinds relevant to the modelled code paths. -/
inductive PyExc where
  | attributeError
  | typeError
deriving DecidableEq, Repr

/-- Evaluation of the flag expression `re.IGNORECASE | re.ARABIC` used by the
text-pattern loops in `_extract_barcode_from_pdf_page` and
`extract_group_name_from_page`.  The Python `re` module defines no attribute
`ARABIC`, so the attribute lookup raises `AttributeError` before `re.findall`
is ever invoked; no flag value is produced. -/
def reIgnorecaseArabicFlags : Except PyExc Nat :=
  Except.error PyExc.attributeError

/-- A source PDF document as the pipeline observes it: `name` is the path
string `fitz` reports (`doc.name`), `pageCount` is `doc.page_count`,
`pageText p` is the embedded text of page `p` (`none` when reading the page
raises), and `imageBarcodes p` lists the payloads the barcode symbology
decoder returns on the rendered page image, in decode order. -/
structure Doc where
  name : String
  pageCount : Nat
  pageText : Nat → Option String
  imageBarcodes : Nat → List String

/-- Whitespace recognized by the model of Python's `str.strip()` (the ASCII
whitespace characters; the strings this pipeline strips carry no exotic
Unicode whitespace). -/
def pySpace (c : Char) : Bool :=
  c == ' ' || c == '\t' || c == '\n' || c == '\r' || c == '\x0b' || c == '\x0c'

/-- Model of Python's `str.strip()`: drop leading and trailing whitespace. -/
def pyStrip (s : String) : String :=
  String.mk (((s.data.dropWhile pySpace).reverse.dropWhile pySpace).reverse)

/-- Loop from the image branch of `_extract_barcode_from_pdf_page`: return the
first decoded payload whose `.strip()` is nonempty. -/
def firstNonemptyStripped : List String → Option String
  | [] => none
  | b :: bs => if pyStrip b ≠ "" then some (pyStrip b) else firstNonemptyStripped bs

/-- Embedding of `BarcodeOCRService._extract_barcode_from_pdf_page`
(`services.py`).  The whole body sits in a `try` whose handler returns `None`.
For a page with a nonempty text layer the code enters the pattern loop, whose
first `re.findall(pattern, text, re.IGNORECASE | re.ARABIC)` call raises
`AttributeError` (see `reIgnorecaseArabicFlags`); the handler swallows it, so
the function returns `None` without reaching the image-decoding branch.  Only
pages with an empty text layer reach `pyzbar` image decoding. -/
def extractBarcodeFromPdfPage (d : Doc) (p : Nat) : Option String :=
  if p < d.pageCount then
    match d.pageText p with
    | none => none
    | some t =>
      if t = "" then
        firstNonemptyStripped (d.imageBarcodes p)
      else
        match reIgnorecaseArabicFlags with
        | Except.error _ => none
        | Except.ok _ => none
  else none

/-- Fallback separator value from `_find_separator_barcode_fast`:
`doc.name.split('/')[-1].split('.')[0][:20] or "document"`. -/
def docDefaultCode (name : String) : String :=
  let base := (name.data.reverse.takeWhile (fun c => c ≠ '/')).reverse
  let stem := base.takeWhile (fun c => c ≠ '.')
  let code := stem.take 20
  if code.isEmpty then "document" else String.mk code

/-- Candidate pages scanned by `_find_separator_barcode_fast`, in order:
page 0; the middle page when more than 10 pages; the last page when more than
one page; then pages `1` through `min(6, total) - 1`. -/
def checkPages (total : Nat) : List Nat :=
  [0] ++ (if 10 < total then [total / 2] else [])
    ++ (if 1 < total then [total - 1] else [])
    ++ List.range' 1 (min 6 total - 1)

/-- Scan loop of `_find_separator_barcode_fast`: first candidate page whose
extracted barcode is truthy with a truthy `.strip()`. -/
def findGo (d : Doc) : List Nat → Option String
  | [] => none
  | p :: ps =>
    match extractBarcodeFromPdfPage d p with
    | some b => if b ≠ "" ∧ pyStrip b ≠ "" then some b else findGo d ps
    | none => findGo d ps

/-- Embedding of `BarcodeOCRService._find_separator_barcode_fast`. -/
def findSeparatorBarcodeFast (d : Doc) (total : Nat) : String :=
  match findGo d (checkPages total) with
  | some b => b
  | none => docDefaultCode d.name

/-- Separator test from `_split_pages_fast`:
`barcode and str(barcode).strip() == str(separator_barcode).strip()`. -/
def isSepSignal (sep : String) (b : Option String) : Bool :=
  match b with
  | none => false
  | some s => decide (s ≠ "") && decide (pyStrip s = pyStrip sep)

/-- Upload job states used by the pipeline (`Upload.STATUS_CHOICES`). -/
inductive Status where
  | pending
  | processing
  | completed
  | failed
deriving DecidableEq, Repr

/-- Observable side effects of one processing run, in program order:
a write to `upload.progress`, a write to `upload.status`, the
`Group.objects.filter(upload=upload).delete()` call, and the saving of a
section's output PDF at a path with a given byte size. -/
inductive Event where
  | progress (n : Nat)
  | statusSet (s : Status)
  | deleteGroups
  | fileWrite (path : String) (size : Nat)
deriving DecidableEq, Repr

/-- Progress value `int(40 + ((page_num + 1) / total_pages * 20))` computed in
the `_split_pages_fast` loop, as an exact floor. -/
def segProgress (total p : Nat) : Nat :=
  (40 * total + (p + 1) * 20) / total

/-- Loop of `_split_pages_fast` over the remaining page numbers `ps`,
carrying the accumulated `sections`, the `current_section`, and the progress
events emitted so far.  A checkpoint progress update fires every tenth page;
closing a nonempty section on a separator page emits a further update with
the same value.  Separator pages are never appended; the trailing nonempty
section is flushed after the loop. -/
def splitGoEv (sig : Nat → Option String) (sep : String) (total : Nat) :
    List Nat → List (List Nat) → List Nat → List Event → List (List Nat) × List Event
  | [], sections, current, evs =>
    (if current.isEmpty then sections else sections ++ [current], evs)
  | p :: ps, sections, current, evs =>
    let evs1 := if p % 10 = 0 then evs ++ [Event.progress (segProgress total p)] else evs
    if isSepSignal sep (sig p) then
      if current.isEmpty then
        splitGoEv sig sep total ps sections [] evs1
      else
        splitGoEv sig sep total ps (sections ++ [current]) []
          (evs1 ++ [Event.progress (segProgress total p)])
    else
      splitGoEv sig sep total ps sections (current ++ [p]) evs1

/-- Sections returned by `BarcodeOCRService._split_pages_fast` (after its
final `cleaned_sections` filter of empty sections). -/
def splitPagesFast (d : Doc) (sep : String) (total : Nat) : List (List Nat) :=
  ((splitGoEv (extractBarcodeFromPdfPage d) sep total (List.range total) [] [] []).1).filter
    (fun s => !s.isEmpty)

/-- Progress events emitted while `_split_pages_fast` runs. -/
def splitEvents (d : Doc) (sep : String) (total : Nat) : List Event :=
  (splitGoEv (extractBarcodeFromPdfPage d) sep total (List.range total) [] [] []).2

/-- Python's Unicode word class `\w` (characters matching `str.isalnum()`
plus the underscore), restricted to the character ranges this repository's
strings actually use: ASCII alphanumerics, the Arabic letter block
U+0621–U+064A, and the Arabic-Indic digits U+0660–U+0669.  Characters outside
the modelled ranges are treated as non-word. -/
def pyWordChar (c : Char) : Bool :=
  c.isAlphanum || c == '_'
    || (decide (0x621 ≤ c.toNat) && decide (c.toNat ≤ 0x64A))
    || (decide (0x660 ≤ c.toNat) && decide (c.toNat ≤ 0x669))

/-- Characters the substitution `re.sub(r'[^\w\-_\.]', '_', filename)` in
`_sanitize_filename` leaves in place: the `\w` class plus `-`, `_`, `.`. -/
def keepChar (c : Char) : Bool :=
  pyWordChar c || c == '-' || c == '_' || c == '.'

/-- Character-wise effect of `re.sub(r'[^\w\-_\.]', '_', filename)`: the
pattern is a single-character class, so each non-kept character becomes one
underscore and length is preserved. -/
def sanitizeChars (s : List Char) : List Char :=
  s.map (fun c => if keepChar c then c else '_')

/-- Embedding of `os.path.splitext` for inputs without a path separator
(`_sanitize_filename` applies it after the substitution has replaced any `/`):
split at the last dot that has a non-dot character somewhere before it;
leading dots never start an extension. -/
def splitextChars (s : List Char) : List Char × List Char :=
  let lead := s.takeWhile (fun c => c = '.')
  let rest := s.dropWhile (fun c => c = '.')
  let revTail := rest.reverse.takeWhile (fun c => c ≠ '.')
  if revTail.length = rest.length then (s, [])
  else (lead ++ rest.take (rest.length - revTail.length - 1), '.' :: revTail.reverse)

/-- Truncation step of `_sanitize_filename`: when the name is longer than 80
characters, keep the first 75 characters of the `splitext` stem plus the
extension (`name[:75] + ext`). -/
def truncate80 (cs : List Char) : List Char :=
  if 80 < cs.length then (splitextChars cs).1.take 75 ++ (splitextChars cs).2
  else cs

/-- Embedding of `BarcodeOCRService._sanitize_filename`: substitute non-kept
characters with `_`; if the result is longer than 80 characters keep the first
75 characters of the `splitext` stem plus the extension; an empty result
falls back to `"document"` (`return filename or "document"`). -/
def sanitizeFilename (filename : String) : String :=
  if (truncate80 (sanitizeChars filename.data)).isEmpty then "document"
  else String.mk (truncate80 (sanitizeChars filename.data))

/-- Embedding of the nested `extract_group_name_from_page` helper of
`_create_groups_ultra_fast`.  After the guard
`if not text or len(text.strip()) < 10: return None`, the first pattern loop
evaluates `re.IGNORECASE | re.ARABIC` and raises `AttributeError`
(see `reIgnorecaseArabicFlags`), which the function's handler turns into
`None`; the later entry-number and date pattern loops are unreachable. -/
def extractGroupNameFromPage (d : Doc) (p : Nat) : Option String :=
  if p < d.pageCount then
    match d.pageText p with
    | none => none
    | some t =>
      if t = "" ∨ (pyStrip t).length < 10 then none
      else
        match reIgnorecaseArabicFlags with
        | Except.error _ => none
        | Except.ok _ => none
  else none

/-- Persisted `Group` row as `create_single_group` tries to create it. -/
structure GroupRec where
  code : String
  pdfPath : String
  pagesCount : Nat
  filename : String
  name : String
deriving DecidableEq, Repr

/-- The `Group.objects.create(code=..., pdf_path=..., pages_count=..., ...,
filename=..., name=group_name)` call in `create_single_group`.  The `Group`
model in `src/processing/models.py` has fields `user`, `upload`, `code`,
`pages`, `pages_count`, `pdf_path`, `filename`, `created_at`, `updated_at`
and no field or property named `name`, so Django's `Model.__init__` raises
`TypeError` for the unexpected keyword argument and no row is created. -/
def groupObjectsCreate (_code _pdfPath : String) (_pagesCount : Nat)
    (_filename _name : String) : Except PyExc GroupRec :=
  Except.error PyExc.typeError

/-- Group name derived in `create_single_group` for the section with 0-based
index `idx` whose first page is `p0`: the name extracted from the first page
when available, otherwise `f"{separator_barcode}_{idx+1}"`, then sanitized. -/
def groupName (d : Doc) (sep : String) (idx : Nat) (p0 : Nat) : String :=
  sanitizeFilename
    (match extractGroupNameFromPage d p0 with
     | some n => n
     | none => sep ++ "_" ++ Nat.repr (idx + 1))

/-- Output file name `f"{group_name}.pdf"` for one section. -/
def outputFilename (d : Doc) (sep : String) (idx : Nat) (p0 : Nat) : String :=
  groupName d sep idx p0 ++ ".pdf"

/-- Embedding of the nested `create_single_group` helper: empty sections give
no result; otherwise the section's pages are written to
`groups/<group_name>.pdf` (size given by the `fsSize` oracle), a write smaller
than 10000 bytes is rejected, and otherwise `Group.objects.create` is invoked
(which raises, see `groupObjectsCreate`); any exception yields `None`. -/
def createSingleGroup (d : Doc) (sep : String) (fsSize : List Nat → Nat)
    (idx : Nat) (pages : List Nat) : Option GroupRec × List Event :=
  match pages with
  | [] => (none, [])
  | p0 :: _ =>
    let filenameSafe := outputFilename d sep idx p0
    let size := fsSize pages
    let evs := [Event.fileWrite ("groups/" ++ filenameSafe) size]
    if size < 10000 then (none, evs)
    else
      match groupObjectsCreate sep ("groups/" ++ filenameSafe) pages.length
          filenameSafe (groupName d sep idx p0) with
      | Except.ok g => (some g, evs)
      | Except.error _ => (none, evs)

/-- Result-collection loop of `_create_groups_ultra_fast` (the thread pool is
modelled in submission order; every path through task completion is
order-insensitive for the properties below).  The `completed` counter and its
progress update `60 + int(completed / total_sections * 40)` advance only for
sections whose creation returned a truthy result. -/
def materializeGo (d : Doc) (sep : String) (fsSize : List Nat → Nat)
    (totalSections : Nat) :
    List (Nat × List Nat) → Nat → List GroupRec × List Event
  | [], _ => ([], [])
  | (idx, pages) :: rest, completed =>
    match createSingleGroup d sep fsSize idx pages with
    | (some g, evs) =>
      let r := materializeGo d sep fsSize totalSections rest (completed + 1)
      (g :: r.1, evs ++ [Event.progress (60 + ((completed + 1) * 40) / totalSections)] ++ r.2)
    | (none, evs) =>
      let r := materializeGo d sep fsSize totalSections rest completed
      (r.1, evs ++ r.2)

/-- Embedding of `BarcodeOCRService._create_groups_ultra_fast`. -/
def materializeAll (d : Doc) (sep : String) (fsSize : List Nat → Nat)
    (secs : List (List Nat)) : List GroupRec × List Event :=
  materializeGo d sep fsSize secs.length secs.enum 0

/-- Final state and event trace of one run. -/
structure RunResult where
  status : Status
  trace : List Event
  groups : List GroupRec
deriving Repr

/-- Embedding of `BarcodeOCRService.process_single_pdf` for one upload:
a missing source file raises `FileNotFoundError` before any progress write
and the handler marks the upload failed; otherwise the run sets
`processing`/5, reports 25, 30 and 35, segments the pages (emitting the
segmentation checkpoints), reports 50, deletes the upload's existing groups,
reports 60, materializes every section, and finishes as `completed` with
progress 100.  Zero sections raise, and the handler marks the upload failed
without touching progress. -/
def processSinglePdf (d : Doc) (fileOnDisk : Bool) (fsSize : List Nat → Nat) :
    RunResult :=
  if fileOnDisk then
    if (splitPagesFast d (findSeparatorBarcodeFast d d.pageCount) d.pageCount).isEmpty then
      { status := Status.failed
        trace := [Event.statusSet Status.processing, Event.progress 5, Event.progress 25,
            Event.progress 30, Event.progress 35]
          ++ splitEvents d (findSeparatorBarcodeFast d d.pageCount) d.pageCount
          ++ [Event.statusSet Status.failed]
        groups := [] }
    else
      { status := Status.completed
        trace := [Event.statusSet Status.processing, Event.progress 5, Event.progress 25,
            Event.progress 30, Event.progress 35]
          ++ splitEvents d (findSeparatorBarcodeFast d d.pageCount) d.pageCount
          ++ [Event.progress 50, Event.deleteGroups, Event.progress 60]
          ++ (materializeAll d (findSeparatorBarcodeFast d d.pageCount) fsSize
              (splitPagesFast d (findSeparatorBarcodeFast d d.pageCount) d.pageCount)).2
          ++ [Event.statusSet Status.completed, Event.progress 100]
        groups := (materializeAll d (findSeparatorBarcodeFast d d.pageCount) fsSize
            (splitPagesFast d (findSeparatorBarcodeFast d d.pageCount) d.pageCount)).1 }
  else
    { status := Status.failed
      trace := [Event.statusSet Status.failed]
      groups := [] }

/-- Successive values written to `upload.progress` during a run. -/
def progressTrace (r : RunResult) : List Nat :=
  r.trace.filterMap (fun e => match e with | Event.progress n => some n | _ => none)

/-- Paths of the output PDFs written during a run, in write order. -/
def writePaths (r : RunResult) : List String :=
  r.trace.filterMap (fun e => match e with | Event.fileWrite p _ => some p | _ => none)

/-- Holds of a trace in which no output file is written before the
`Group.objects.filter(upload=upload).delete()` call (vacuously when nothing
is written at all). -/
def writesAfterDelete : List Event → Bool
  | [] => true
  | Event.deleteGroups :: _ => true
  | Event.fileWrite _ _ :: _ => false
  | _ :: es => writesAfterDelete es

/-- Executable check that a list of progress values is nondecreasing from
each reported value to the next. -/
def nondecreasing : List Nat → Bool
  | [] => true
  | [_] => true
  | a :: b :: rest => decide (a ≤ b) && nondecreasing (b :: rest)

/-- Character set `[A-Za-z0-9_.-]` that the specification asserts sanitizer
output stays within (written from the spec's words, for comparison with the
code's behaviour). -/
def asciiSafeChar (c : Char) : Bool :=
  c.isAlphanum || c == '_' || c == '.' || c == '-'

/-! Concrete documents and oracles used by the counterexamples and witnesses. -/

/-- One-page document stored as `doc.pdf` whose single page has an empty text
layer and no decodable barcode: separator detection falls back to the
filename-derived code `doc`, which matches no page. -/
def exDoc2 : Doc :=
  { name := "doc.pdf", pageCount := 1,
    pageText := fun _ => some "", imageBarcodes := fun _ => [] }

/-- Size oracle under which every written output PDF is 20000 bytes. -/
def exFs : List Nat → Nat := fun _ => 20000

/-- One-page document whose single page carries the barcode `SEP1`: the
detector returns `SEP1`, and segmentation then consumes the only page as a
separator, yielding zero sections. -/
def exDoc3 : Doc :=
  { name := "x.pdf", pageCount := 1,
    pageText := fun _ => some "", imageBarcodes := fun _ => ["SEP1"] }

/-- One-page document whose page text is `date: 25/02/2024` (16 characters,
passing the minimum-length guard) and which carries no image barcode. -/
def exDoc5 : Doc :=
  { name := "x.pdf", pageCount := 1,
    pageText := fun _ => some "date: 25/02/2024", imageBarcodes := fun _ => [] }

/-- One-page document with an empty text layer, used to materialize the
single-section group `[0]`. -/
def exDoc6 : Doc :=
  { name := "x.pdf", pageCount := 1,
    pageText := fun _ => some "", imageBarcodes := fun _ => [] }

/-- One-page document whose page text contains the labeled barcode pattern
`Barcode: 1234567890` and whose rendered image also carries a decodable
barcode payload. -/
def exDoc7 : Doc :=
  { name := "x.pdf", pageCount := 1,
    pageText := fun _ => some "Barcode: 1234567890",
    imageBarcodes := fun _ => ["777777777777"] }

/-- Document used for the missing-source-file run. -/
def exDoc8 : Doc :=
  { name := "gone.pdf", pageCount := 3,
    pageText := fun _ => some "", imageBarcodes := fun _ => [] }

/-- A 100-character separator barcode payload. -/
def sepA : String := String.mk (List.replicate 100 'a')

/-- Four-page document whose pages 0 and 2 carry the 100-character barcode
`sepA` and whose pages 1 and 3 are blank: segmentation yields the two
sections `[1]` and `[3]`. -/
def exDoc9 : Doc :=
  { name := "z.pdf", pageCount := 4,
    pageText := fun _ => some "",
    imageBarcodes := fun p => if p = 0 ∨ p = 2 then [sepA] else [] }

/-- Input on which `_sanitize_filename` is not idempotent: 75 dots, then
`a.bcdef` (82 characters in total, all of them kept by the substitution). -/
def x10 : String := String.mk (List.replicate 75 '.' ++ "a.bcdef".data)

/-! Lemmas about the segmentation loop. -/

/-- Concatenating the sections produced by the segmentation loop (together
with whatever was accumulated before) yields exactly the non-separator pages,
in scan order. -/
lemma splitGoEv_fst_flatten (sig : Nat → Option String) (sep : String) (total : Nat) :
    ∀ (ps : List Nat) (sections : List (List Nat)) (current : List Nat) (evs : List Event),
      ((splitGoEv sig sep total ps sections current evs).1).flatten
        = sections.flatten ++ current ++ ps.filter (fun p => !isSepSignal sep (sig p)) := by
  intro ps
  induction ps with
  | nil =>
    intro sections current evs
    by_cases h : current.isEmpty
    · simp [splitGoEv, h, List.isEmpty_iff.mp h]
    · simp [splitGoEv, h]
  | cons p ps ih =>
    intro sections current evs
    by_cases hsep : isSepSignal sep (sig p)
    · by_cases hcur : current.isEmpty
      · simp [splitGoEv, hsep, hcur, ih, List.isEmpty_iff.mp hcur, List.filter_cons]
      · simp [splitGoEv, hsep, hcur, ih, List.filter_cons, List.append_assoc]
    · simp [splitGoEv, hsep, ih, List.filter_cons, List.append_assoc]

/-- Dropping the empty lists of a list of lists does not change its
concatenation. -/
lemma flatten_filter_nonempty (l : List (List Nat)) :
    (l.filter (fun s => !s.isEmpty)).flatten = l.flatten := by
  induction l with
  | nil => rfl
  | cons s rest ih =>
    by_cases h : s.isEmpty
    · simp [List.filter_cons, h, List.isEmpty_iff.mp h, ih]
    · simp [List.filter_cons, h, ih]

/-- The pages of all sections returned by `_split_pages_fast`, concatenated,
are exactly the pages of the scanned range whose signal is not the
separator. -/
lemma splitPagesFast_flatten (d : Doc) (sep : String) (total : Nat) :
    (splitPagesFast d sep total).flatten
      = (List.range total).filter
          (fun p => !isSepSignal sep (extractBarcodeFromPdfPage d p)) := by
  unfold splitPagesFast
  rw [flatten_filter_nonempty, splitGoEv_fst_flatten]
  simp

/-- Claim C1: for every document and every separator code, the sections
returned by the page segmenter are pairwise disjoint, and the union of their
page-index lists plus the set of pages whose decoded signal equals the
separator code (after stripping) is exactly the full page range
`[0, pageCount)`. -/
theorem C1_segmenter_partition (d : Doc) (sep : String) :
    (splitPagesFast d sep d.pageCount).Pairwise List.Disjoint ∧
    ∀ p : Nat,
      ((∃ s ∈ splitPagesFast d sep d.pageCount, p ∈ s) ∨
          (p < d.pageCount ∧
            ∃ b, extractBarcodeFromPdfPage d p = some b ∧ pyStrip b = pyStrip sep))
        ↔ p < d.pageCount := by
  have hflat := splitPagesFast_flatten d sep d.pageCount
  constructor
  · have hnodup : (splitPagesFast d sep d.pageCount).flatten.Nodup := by
      rw [hflat]
      exact List.Nodup.filter _ (List.nodup_range d.pageCount)
    exact (List.nodup_flatten.mp hnodup).2
  · intro p
    constructor
    · rintro (⟨s, hs, hp⟩ | ⟨hp, _⟩)
      · have hmem : p ∈ (splitPagesFast d sep d.pageCount).flatten :=
          List.mem_flatten.mpr ⟨s, hs, hp⟩
        rw [hflat] at hmem
        exact List.mem_range.mp (List.mem_filter.mp hmem).1
      · exact hp
    · intro hp
      by_cases hsep : isSepSignal sep (extractBarcodeFromPdfPage d p) = true
      · refine Or.inr ⟨hp, ?_⟩
        cases hb : extractBarcodeFromPdfPage d p with
        | none => rw [hb] at hsep; exact absurd hsep (by simp [isSepSignal])
        | some b =>
          rw [hb] at hsep
          simp only [isSepSignal, Bool.and_eq_true, decide_eq_true_eq] at hsep
          exact ⟨b, rfl, hsep.2⟩
      · refine Or.inl ?_
        have hmem : p ∈ (splitPagesFast d sep d.pageCount).flatten := by
          rw [hflat]
          exact List.mem_filter.mpr ⟨List.mem_range.mpr hp, by simp [hsep]⟩
        exact List.mem_flatten.mp hmem

/-- When no remaining page matches the separator, the segmentation loop just
extends the current section with every remaining page. -/
lemma splitGoEv_fst_no_sep (sig : Nat → Option String) (sep : String) (total : Nat) :
    ∀ (ps : List Nat) (sections : List (List Nat)) (current : List Nat) (evs : List Event),
      (∀ p ∈ ps, isSepSignal sep (sig p) = false) →
      (splitGoEv sig sep total ps sections current evs).1
        = if (current ++ ps).isEmpty then sections else sections ++ [current ++ ps] := by
  intro ps
  induction ps with
  | nil =>
    intro sections current evs _
    simp [splitGoEv]
  | cons p ps ih =>
    intro sections current evs h
    have hp : isSepSignal sep (sig p) = false := h p (by simp)
    rw [show (splitGoEv sig sep total (p :: ps) sections current evs).1
        = (splitGoEv sig sep total ps sections (current ++ [p])
            (if p % 10 = 0 then evs ++ [Event.progress (segProgress total p)] else evs)).1
      from by simp [splitGoEv, hp]]
    rw [ih _ _ _ (fun q hq => h q (by simp [hq]))]
    simp [List.append_assoc]

/-- The group-name extractor returns `None` on every page: pages without
enough text fail the guard, and for every other page the pattern stage
raises `AttributeError` on the nonexistent `re.ARABIC` flag, which the
enclosing handler turns into `None`. -/
lemma extractGroupNameFromPage_eq_none (d : Doc) (p : Nat) :
    extractGroupNameFromPage d p = none := by
  unfold extractGroupNameFromPage
  by_cases hp : p < d.pageCount
  · rw [if_pos hp]
    cases d.pageText p with
    | none => rfl
    | some t =>
      by_cases hg : t = "" ∨ (pyStrip t).length < 10
      · simp [hg]
      · simp [hg, reIgnorecaseArabicFlags]
  · rw [if_neg hp]

/-! Lemmas about the sanitizer. -/

/-- Every character the substitution step outputs is kept by the class
`[\w\-_\.]` (non-kept characters become the kept `_`). -/
lemma sanitizeChars_keep (l : List Char) :
    ∀ c ∈ sanitizeChars l, keepChar c = true := by
  intro c hc
  rcases List.mem_map.mp hc with ⟨a, _, rfl⟩
  by_cases h : keepChar a = true
  · simp [h]
  · rw [if_neg h]
    decide

/-- Characters of the `splitext` stem come from the input. -/
lemma mem_splitextChars_fst {l : List Char} {c : Char}
    (h : c ∈ (splitextChars l).1) : c ∈ l := by
  simp only [splitextChars] at h
  split at h
  · exact h
  · rcases List.mem_append.mp h with h | h
    · exact (List.takeWhile_sublist _).subset h
    · exact (List.dropWhile_sublist _).subset (List.take_subset _ _ h)

/-- Characters of the `splitext` extension are the dot or come from the
input. -/
lemma mem_splitextChars_snd {l : List Char} {c : Char}
    (h : c ∈ (splitextChars l).2) : c = '.' ∨ c ∈ l := by
  simp only [splitextChars] at h
  split at h
  · exact absurd h (List.not_mem_nil c)
  · rcases List.mem_cons.mp h with h | h
    · exact Or.inl h
    · refine Or.inr ?_
      have h0 := List.mem_reverse.mp h
      have h1 := (List.takeWhile_sublist _).subset h0
      have h2 := List.mem_reverse.mp h1
      exact (List.dropWhile_sublist _).subset h2

/-- Characters surviving truncation are the dot or come from the input. -/
lemma mem_truncate80 {cs : List Char} {c : Char}
    (h : c ∈ truncate80 cs) : c ∈ cs ∨ c = '.' := by
  unfold truncate80 at h
  split at h
  · rcases List.mem_append.mp h with h | h
    · exact Or.inl (mem_splitextChars_fst (List.take_subset _ _ h))
    · rcases mem_splitextChars_snd h with h | h
      · exact Or.inr h
      · exact Or.inl h
  · exact Or.inl h

/-- Every character of a sanitized name is in the kept class. -/
lemma sanitizeFilename_chars (s : String) :
    ∀ c ∈ (sanitizeFilename s).data, keepChar c = true := by
  intro c hc
  unfold sanitizeFilename at hc
  split at hc
  · exact (by decide : ∀ c ∈ ("document" : String).data, keepChar c = true) c hc
  · rcases mem_truncate80 hc with h | rfl
    · exact sanitizeChars_keep _ _ h
    · decide

/-- A sanitized name is never the empty string. -/
lemma sanitizeFilename_ne_empty (s : String) : (sanitizeFilename s).data ≠ [] := by
  unfold sanitizeFilename
  split
  · decide
  · next h =>
    intro hd
    exact h (by simpa [List.isEmpty_iff] using hd)

/-- The sanitizer leaves strings alone that consist of kept characters, are
at most 80 characters long, and are nonempty. -/
lemma sanitizeFilename_eq_self (s : String) (hkeep : ∀ c ∈ s.data, keepChar c = true)
    (hlen : s.data.length ≤ 80) (hne : s.data ≠ []) : sanitizeFilename s = s := by
  have hchars : sanitizeChars s.data = s.data := by
    unfold sanitizeChars
    conv_rhs => rw [← List.map_id s.data]
    refine List.map_congr_left ?_
    intro a ha
    simp [hkeep a ha]
  have htrunc : truncate80 (sanitizeChars s.data) = s.data := by
    rw [hchars]
    unfold truncate80
    rw [if_neg (by omega)]
  unfold sanitizeFilename
  rw [htrunc, if_neg (by simp [List.isEmpty_iff, hne])]

/-- Claim C3 (amended): when the separator code matches no page of the scan
range, segmentation yields a single section holding every page index, and a
nonempty document therefore cannot produce zero sections in this situation;
but (see the counterexample) a scan that does yield zero sections — every
page matching the separator — makes the run raise and the Upload end FAILED
rather than fall back to one whole-document section. -/
theorem C3_no_sep_whole_document (d : Doc) (sep : String) (total : Nat)
    (h0 : 0 < total)
    (h : ∀ p, p < total → isSepSignal sep (extractBarcodeFromPdfPage d p) = false) :
    splitPagesFast d sep total = [List.range total] := by
  unfold splitPagesFast
  rw [splitGoEv_fst_no_sep _ _ _ _ _ _ _
    (fun p hp => h p (List.mem_range.mp hp))]
  have hne : (List.range total).isEmpty = false := by
    simp [List.isEmpty_iff, List.range_eq_nil]
    omega
  simp [hne, List.filter_cons]

/-- Witness for `C3_no_sep_whole_document` at the one-page document
`exDoc2`, whose fallback separator code `doc` matches no page. -/
theorem C3_no_sep_whole_document_witness :
    (0 < 1 ∧
      ∀ p, p < 1 → isSepSignal "doc" (extractBarcodeFromPdfPage exDoc2 p) = false) ∧
    splitPagesFast exDoc2 "doc" 1 = [List.range 1] :=
  ⟨⟨by decide, by decide⟩,
    C3_no_sep_whole_document exDoc2 "doc" 1 (by decide) (by decide)⟩

/-- Claim C4 (amended): every character of the sanitizer's output lies in the
kept class `[\w\-_\.]`, where `\w` is Python's Unicode word class — so
non-Latin word characters such as Arabic letters are preserved, not replaced
by `_`, and the output is not ASCII-safe in general. -/
theorem C4_sanitizer_output_chars (s : String) :
    ∀ c ∈ (sanitizeFilename s).data, keepChar c = true :=
  sanitizeFilename_chars s

/-- Claim C4 counterexample: the sanitizer maps `سند_7788` to itself; the
Arabic letter seen in the output is outside `[A-Za-z0-9_.-]`, so the claimed
ASCII-safety fails. -/
theorem C4_counterexample :
    sanitizeFilename "سند_7788" = "سند_7788" ∧
    'س' ∈ (sanitizeFilename "سند_7788").data ∧ asciiSafeChar 'س' = false := by
  decide

/-- Claim C10 (amended): the sanitizer is idempotent on every input whose
sanitized form is at most 80 characters long (in particular on all inputs of
length at most 80); the counterexample shows idempotence fails when
truncation leaves a name longer than 80 characters. -/
theorem C10_sanitizer_idempotent_of_short (x : String)
    (h : (sanitizeFilename x).length ≤ 80) :
    sanitizeFilename (sanitizeFilename x) = sanitizeFilename x :=
  sanitizeFilename_eq_self _ (sanitizeFilename_chars x) h (sanitizeFilename_ne_empty x)

/-- Witness for `C10_sanitizer_idempotent_of_short` at `abc`. -/
theorem C10_sanitizer_idempotent_of_short_witness :
    (sanitizeFilename "abc").length ≤ 80 ∧
    sanitizeFilename (sanitizeFilename "abc") = sanitizeFilename "abc" :=
  ⟨by decide, C10_sanitizer_idempotent_of_short "abc" (by decide)⟩

/-- Claim C10 counterexample: sanitizing the 82-character input `x10`
(75 dots, then `a.bcdef`) yields an 81-character name, and sanitizing that
again truncates it further, so `sanitize (sanitize x10) ≠ sanitize x10`. -/
theorem C10_counterexample :
    sanitizeFilename (sanitizeFilename x10) ≠ sanitizeFilename x10 := by
  decide

/-! Lemmas about the run trace. -/

/-- The segmentation loop only ever appends progress events to its event
accumulator. -/
lemma splitGoEv_snd_progress (sig : Nat → Option String) (sep : String) (total : Nat) :
    ∀ (ps : List Nat) (sections : List (List Nat)) (current : List Nat) (evs : List Event),
      (∀ e ∈ evs, ∃ n, e = Event.progress n) →
      ∀ e ∈ (splitGoEv sig sep total ps sections current evs).2, ∃ n, e = Event.progress n := by
  intro ps
  induction ps with
  | nil =>
    intro sections current evs h e he
    exact h e (by simpa [splitGoEv] using he)
  | cons p ps ih =>
    intro sections current evs h
    have h1 : ∀ e ∈ (if p % 10 = 0 then evs ++ [Event.progress (segProgress total p)] else evs),
        ∃ n, e = Event.progress n := by
      split
      · intro e he
        rcases List.mem_append.mp he with he | he
        · exact h e he
        · exact ⟨_, by simpa using he⟩
      · exact h
    by_cases hsep : isSepSignal sep (sig p) = true
    · by_cases hcur : current.isEmpty = true
      · intro e he
        rw [show (splitGoEv sig sep total (p :: ps) sections current evs).2
            = (splitGoEv sig sep total ps sections []
                (if p % 10 = 0 then evs ++ [Event.progress (segProgress total p)]
                 else evs)).2
          from by simp [splitGoEv, hsep, hcur]] at he
        exact ih _ _ _ h1 e he
      · intro e he
        have h2 : ∀ e ∈ ((if p % 10 = 0 then evs ++ [Event.progress (segProgress total p)]
              else evs) ++ [Event.progress (segProgress total p)]),
            ∃ n, e = Event.progress n := by
          intro e he
          rcases List.mem_append.mp he with he | he
          · exact h1 e he
          · exact ⟨_, by simpa using he⟩
        rw [show (splitGoEv sig sep total (p :: ps) sections current evs).2
            = (splitGoEv sig sep total ps (sections ++ [current]) []
                ((if p % 10 = 0 then evs ++ [Event.progress (segProgress total p)]
                  else evs) ++ [Event.progress (segProgress total p)])).2
          from by simp [splitGoEv, hsep, hcur]] at he
        exact ih _ _ _ h2 e he
    · intro e he
      rw [show (splitGoEv sig sep total (p :: ps) sections current evs).2
          = (splitGoEv sig sep total ps sections (current ++ [p])
              (if p % 10 = 0 then evs ++ [Event.progress (segProgress total p)]
               else evs)).2
        from by simp [splitGoEv, hsep]] at he
      exact ih _ _ _ h1 e he

/-- A trace holding only progress and status events trivially writes no file
before the delete. -/
lemma writesAfterDelete_of_skips (l : List Event)
    (h : ∀ e ∈ l, (∃ n, e = Event.progress n) ∨ (∃ s, e = Event.statusSet s)) :
    writesAfterDelete l = true := by
  induction l with
  | nil => rfl
  | cons e rest ih =>
    rcases h e (by simp) with ⟨n, rfl⟩ | ⟨s, rfl⟩
    · simpa [writesAfterDelete] using ih (fun e he => h e (by simp [he]))
    · simpa [writesAfterDelete] using ih (fun e he => h e (by simp [he]))

/-- A trace whose part before the delete event holds only progress and status
events writes no file before the delete. -/
lemma writesAfterDelete_append_delete (l1 l2 : List Event)
    (h : ∀ e ∈ l1, (∃ n, e = Event.progress n) ∨ (∃ s, e = Event.statusSet s)) :
    writesAfterDelete (l1 ++ Event.deleteGroups :: l2) = true := by
  induction l1 with
  | nil => rfl
  | cons e rest ih =>
    rcases h e (by simp) with ⟨n, rfl⟩ | ⟨s, rfl⟩
    · simpa [writesAfterDelete] using ih (fun e he => h e (by simp [he]))
    · simpa [writesAfterDelete] using ih (fun e he => h e (by simp [he]))

/-- Claim C2 (amended): across one successful run — one whose final state is
COMPLETED — the final progress value reported to the Upload's progress sink
is exactly 100; successive reported values, however, are not always
non-decreasing (see the counterexample). -/
theorem C2_final_progress_100 (d : Doc) (fileOnDisk : Bool) (fsSize : List Nat → Nat)
    (h : (processSinglePdf d fileOnDisk fsSize).status = Status.completed) :
    (progressTrace (processSinglePdf d fileOnDisk fsSize)).getLast? = some 100 := by
  unfold processSinglePdf at h ⊢
  by_cases hf : fileOnDisk = true
  · rw [if_pos hf] at h ⊢
    by_cases hs : (splitPagesFast d (findSeparatorBarcodeFast d d.pageCount)
        d.pageCount).isEmpty = true
    · rw [if_pos hs] at h
      exact Status.noConfusion h
    · rw [if_neg hs]
      unfold progressTrace
      simp only [List.filterMap_append]
      rw [show List.filterMap
          (fun e => match e with | Event.progress n => some n | _ => none)
          [Event.statusSet Status.completed, Event.progress 100] = [100] from rfl]
      exact List.getLast?_concat _
  · rw [if_neg hf] at h
    exact Status.noConfusion h

/-- Witness for `C2_final_progress_100` at the one-page document `exDoc2`. -/
theorem C2_final_progress_100_witness :
    (processSinglePdf exDoc2 true exFs).status = Status.completed ∧
    (progressTrace (processSinglePdf exDoc2 true exFs)).getLast? = some 100 :=
  ⟨by decide, C2_final_progress_100 exDoc2 true exFs (by decide)⟩

/-- Claim C2 counterexample: a completed one-page run reports the progress
sequence 5, 25, 30, 35, 60, 50, 60, 100 — the segmentation checkpoint
`int(40 + 1/1*20) = 60` precedes the fixed post-segmentation checkpoint 50,
so successive reported values decrease although the run succeeds. -/
theorem C2_counterexample :
    (processSinglePdf exDoc2 true exFs).status = Status.completed ∧
    progressTrace (processSinglePdf exDoc2 true exFs) = [5, 25, 30, 35, 60, 50, 60, 100] ∧
    nondecreasing (progressTrace (processSinglePdf exDoc2 true exFs)) = false := by
  decide

/-- Claim C8 (amended): within every run, the deletion of the Upload's
existing GroupRecords happens before any new group file is written — but it
happens only after segmentation, not before the pipeline stages begin, and a
run that fails before that point (see the counterexample) never deletes
them. -/
theorem C8_delete_precedes_writes (d : Doc) (fileOnDisk : Bool) (fsSize : List Nat → Nat) :
    writesAfterDelete (processSinglePdf d fileOnDisk fsSize).trace = true := by
  unfold processSinglePdf
  by_cases hf : fileOnDisk = true
  · rw [if_pos hf]
    have hevs1 : ∀ e ∈ ([Event.statusSet Status.processing, Event.progress 5,
          Event.progress 25, Event.progress 30, Event.progress 35]
        ++ splitEvents d (findSeparatorBarcodeFast d d.pageCount) d.pageCount),
        (∃ n, e = Event.progress n) ∨ (∃ s, e = Event.statusSet s) := by
      intro e he
      rcases List.mem_append.mp he with he | he
      · simp only [List.mem_cons, List.mem_singleton] at he
        rcases he with rfl | rfl | rfl | rfl | rfl | h
        · exact Or.inr ⟨_, rfl⟩
        · exact Or.inl ⟨_, rfl⟩
        · exact Or.inl ⟨_, rfl⟩
        · exact Or.inl ⟨_, rfl⟩
        · exact Or.inl ⟨_, rfl⟩
        · exact absurd h (List.not_mem_nil e)
      · exact Or.inl (splitGoEv_snd_progress _ _ _ _ _ _ _ (by simp) e he)
    by_cases hs : (splitPagesFast d (findSeparatorBarcodeFast d d.pageCount)
        d.pageCount).isEmpty = true
    · rw [if_pos hs]
      refine writesAfterDelete_of_skips _ ?_
      intro e he
      rcases List.mem_append.mp he with he | he
      · exact hevs1 e he
      · simp only [List.mem_singleton] at he
        subst he
        exact Or.inr ⟨_, rfl⟩
    · rw [if_neg hs]
      have h2 := writesAfterDelete_append_delete
        (([Event.statusSet Status.processing, Event.progress 5, Event.progress 25,
            Event.progress 30, Event.progress 35]
          ++ splitEvents d (findSeparatorBarcodeFast d d.pageCount) d.pageCount)
          ++ [Event.progress 50])
        ([Event.progress 60]
          ++ (materializeAll d (findSeparatorBarcodeFast d d.pageCount) fsSize
              (splitPagesFast d (findSeparatorBarcodeFast d d.pageCount) d.pageCount)).2
          ++ [Event.statusSet Status.completed, Event.progress 100])
        (by
          intro e he
          rcases List.mem_append.mp he with he | he
          · exact hevs1 e he
          · simp only [List.mem_singleton] at he
            subst he
            exact Or.inl ⟨_, rfl⟩)
      simpa only [List.append_assoc, List.cons_append, List.singleton_append,
        List.nil_append] using h2
  · rw [if_neg hf]
    rfl

/-- Claim C8 counterexample: a run whose source file is missing ends FAILED
without ever reaching the `Group.objects.filter(upload=upload).delete()`
call, so GroupRecords persisted before the run survive it — deletion is not
performed before the pipeline stages begin. -/
theorem C8_counterexample :
    (processSinglePdf exDoc8 false exFs).status = Status.failed ∧
    Event.deleteGroups ∉ (processSinglePdf exDoc8 false exFs).trace := by
  decide

/-- Claim C3 counterexample: on a one-page document whose only page carries
the detected separator barcode, the scan yields zero sections, and the run
does not fall back to a single whole-document section — it ends FAILED
(the code raises on `if not sections`). -/
theorem C3_counterexample :
    splitPagesFast exDoc3 "SEP1" 1 = [] ∧
    (processSinglePdf exDoc3 true exFs).status = Status.failed := by
  decide

/-- Claim C5 (amended): the name extractor never matches a date — for every
document and page it returns `None`, because its first pattern loop raises
`AttributeError` on the nonexistent `re.ARABIC` flag and the handler
swallows it; the date branch (which, as written, would only replace `/` by
`-`, preserving the day-month-year order rather than producing `YYYY-MM-DD`)
is unreachable. -/
theorem C5_extractor_returns_no_name (d : Doc) (p : Nat) :
    extractGroupNameFromPage d p = none :=
  extractGroupNameFromPage_eq_none d p

/-- Claim C5 counterexample: a page whose text is `date: 25/02/2024` (which
the claim says yields a name containing `2024-02-25`) produces no name at
all. -/
theorem C5_counterexample :
    exDoc5.pageText 0 = some "date: 25/02/2024" ∧
    extractGroupNameFromPage exDoc5 0 = none := by
  decide

/-- Claim C6: materializing the section `[0]` writes its output PDF
(20000 bytes, above the 10000-byte minimum, so the size validation passes)
and still yields no GroupRecord: the `Group.objects.create(..., name=...)`
call raises `TypeError` because the `Group` model has no `name` field, and
the handler swallows the exception.  A GroupRecord can therefore never be
returned, while the already-written file remains. -/
theorem C6_create_never_returns_record :
    (createSingleGroup exDoc6 "S" exFs 0 [0]).1 = none ∧
    (createSingleGroup exDoc6 "S" exFs 0 [0]).2
      = [Event.fileWrite "groups/S_1.pdf" 20000] ∧
    ¬ exFs [0] < 10000 := by
  decide

/-- Claim C7: a page whose extracted text contains the labeled pattern
`Barcode: 1234567890` — and whose rendered image even carries a decodable
barcode — yields no barcode at all: the pattern loop's
`re.findall(..., re.IGNORECASE | re.ARABIC)` raises `AttributeError`
(`re.ARABIC` does not exist), the handler returns `None`, and image decoding
is skipped without any text match having been accepted. -/
theorem C7_text_match_not_accepted :
    exDoc7.pageText 0 = some "Barcode: 1234567890" ∧
    firstNonemptyStripped (exDoc7.imageBarcodes 0) = some "777777777777" ∧
    extractBarcodeFromPdfPage exDoc7 0 = none := by
  decide

/-- Claim C9 counterexample: with a 100-character separator barcode, the two
distinct sections `[1]` and `[3]` of `exDoc9` both get the fallback names
`<sep>_1` and `<sep>_2`, which the sanitizer truncates to the same
75-character stem — so one run writes both sections to the same output
path. -/
theorem C9_counterexample :
    findSeparatorBarcodeFast exDoc9 4 = sepA ∧
    splitPagesFast exDoc9 sepA 4 = [[1], [3]] ∧
    outputFilename exDoc9 sepA 0 1 = outputFilename exDoc9 sepA 1 3 ∧
    writePaths (processSinglePdf exDoc9 true exFs)
      = ["groups/" ++ String.mk (List.replicate 75 'a') ++ ".pdf",
         "groups/" ++ String.mk (List.replicate 75 'a') ++ ".pdf"] := by
  decide

/-! Decimal representation of the 1-based section ordinal: `Nat.repr` is
injective and produces only kept characters.  Core's `Nat.toDigitsCore` is
related to `Nat.digits` first. -/

/-- With enough fuel, core's digit loop produces the base-10 digits of a
positive number, most significant first, in front of the accumulator. -/
lemma toDigitsCore_eq_digits :
    ∀ (n : Nat), 0 < n → ∀ (fuel : Nat) (ds : List Char), n < fuel →
      Nat.toDigitsCore 10 fuel n ds
        = ((Nat.digits 10 n).map Nat.digitChar).reverse ++ ds := by
  intro n
  induction n using Nat.strong_induction_on with
  | _ n ih =>
    intro hn fuel ds hfuel
    have h110 : (1 : Nat) < 10 := by norm_num
    cases fuel with
    | zero => omega
    | succ fuel =>
      simp only [Nat.toDigitsCore]
      by_cases h10 : n / 10 = 0
      · rw [if_pos h10]
        have hlt : n < 10 := (Nat.div_eq_zero_iff (by norm_num)).mp h10
        rw [Nat.digits_def' h110 hn, h10]
        simp [Nat.mod_eq_of_lt hlt]
      · rw [if_neg h10]
        have hpos : 0 < n / 10 := Nat.pos_of_ne_zero h10
        have hdivlt : n / 10 < n := Nat.div_lt_self hn (by norm_num)
        rw [ih (n / 10) hdivlt hpos fuel (Nat.digitChar (n % 10) :: ds) (by omega)]
        rw [Nat.digits_def' h110 hn]
        simp [List.append_assoc]

/-- The decimal string of a positive number spells its digits. -/
lemma natRepr_pos_eq (n : Nat) (hn : 0 < n) :
    Nat.repr n = (((Nat.digits 10 n).map Nat.digitChar).reverse).asString := by
  show (Nat.toDigits 10 n).asString = _
  unfold Nat.toDigits
  rw [toDigitsCore_eq_digits n hn (n + 1) [] (Nat.lt_succ_self n)]
  rw [List.append_nil]

/-- Digit characters of digits below ten determine the digits. -/
lemma map_digitChar_inj :
    ∀ (l1 l2 : List Nat), (∀ d ∈ l1, d < 10) → (∀ d ∈ l2, d < 10) →
      l1.map Nat.digitChar = l2.map Nat.digitChar → l1 = l2 := by
  intro l1
  induction l1 with
  | nil =>
    intro l2 _ _ h
    cases l2 with
    | nil => rfl
    | cons b l2 => simp at h
  | cons a l1 ih =>
    intro l2 h1 h2 h
    cases l2 with
    | nil => simp at h
    | cons b l2 =>
      simp only [List.map_cons, List.cons.injEq] at h
      have hab : a = b :=
        (by decide : ∀ x < 10, ∀ y < 10, Nat.digitChar x = Nat.digitChar y → x = y)
          a (h1 a (by simp)) b (h2 b (by simp)) h.1
      subst hab
      rw [ih l2 (fun d hd => h1 d (by simp [hd])) (fun d hd => h2 d (by simp [hd])) h.2]

/-- Decimal string representations of distinct naturals differ. -/
lemma natRepr_injective (m n : Nat) (h : Nat.repr m = Nat.repr n) : m = n := by
  have hlt10 : ∀ k : Nat, ∀ d ∈ Nat.digits 10 k, d < 10 := by
    intro k d hd
    exact Nat.digits_lt_base (by norm_num) hd
  have key : ∀ k : Nat, 0 < k → Nat.repr k = "0" → False := by
    intro k hk h0
    rw [natRepr_pos_eq k hk] at h0
    have hrev : ((Nat.digits 10 k).map Nat.digitChar).reverse = ['0'] :=
      congrArg String.data h0
    have hmap : (Nat.digits 10 k).map Nat.digitChar = ['0'] := by
      have := congrArg List.reverse hrev
      simpa using this
    have hdig : Nat.digits 10 k = [0] :=
      map_digitChar_inj _ [0] (hlt10 k) (by simp) (by simpa using hmap)
    have hof := Nat.ofDigits_digits 10 k
    rw [hdig] at hof
    simp [Nat.ofDigits] at hof
    omega
  rcases Nat.eq_zero_or_pos m with hm | hm <;> rcases Nat.eq_zero_or_pos n with hn | hn
  · omega
  · exact absurd (by rw [← h, hm]; rfl : Nat.repr n = "0") (fun h0 => key n hn h0)
  · exact absurd (by rw [h, hn]; rfl : Nat.repr m = "0") (fun h0 => key m hm h0)
  · rw [natRepr_pos_eq m hm, natRepr_pos_eq n hn] at h
    have hrev : ((Nat.digits 10 m).map Nat.digitChar).reverse
        = ((Nat.digits 10 n).map Nat.digitChar).reverse := congrArg String.data h
    have hmap : (Nat.digits 10 m).map Nat.digitChar
        = (Nat.digits 10 n).map Nat.digitChar := by
      have := congrArg List.reverse hrev
      simpa using this
    have hdig := map_digitChar_inj _ _ (hlt10 m) (hlt10 n) hmap
    have h1 := Nat.ofDigits_digits 10 m
    have h2 := Nat.ofDigits_digits 10 n
    rw [hdig] at h1
    exact h1.symm.trans h2

/-- Every character of a decimal numeral is kept by the sanitizer. -/
lemma natRepr_chars_keep (n : Nat) : ∀ c ∈ (Nat.repr n).data, keepChar c = true := by
  rcases Nat.eq_zero_or_pos n with hn | hn
  · subst hn
    decide
  · rw [natRepr_pos_eq n hn]
    intro c hc
    rcases List.mem_map.mp (List.mem_reverse.mp hc) with ⟨d, hd, rfl⟩
    exact (by decide : ∀ x < 10, keepChar (Nat.digitChar x) = true)
      d (Nat.digits_lt_base (by norm_num) hd)

/-- Claim C9 (amended): two distinct sections are materialized to distinct
output file paths provided the fallback names `sep_(i+1)` survive
sanitization intact — the separator code consists of kept characters and the
names stay within the 80-character truncation bound.  (Name extraction from
page text always yields `None`, so every name embeds the 1-based section
ordinal; the counterexample shows truncation of longer names can erase the
ordinal and collide.) -/
theorem C9_distinct_paths_when_untruncated (d : Doc) (sep : String) (i j p0 q0 : Nat)
    (hsep : ∀ c ∈ sep.data, keepChar c = true)
    (hi : (sep ++ "_" ++ Nat.repr (i + 1)).length ≤ 80)
    (hj : (sep ++ "_" ++ Nat.repr (j + 1)).length ≤ 80)
    (hij : i ≠ j) :
    outputFilename d sep i p0 ≠ outputFilename d sep j q0 := by
  intro h
  unfold outputFilename groupName at h
  rw [extractGroupNameFromPage_eq_none, extractGroupNameFromPage_eq_none] at h
  have hkeep : ∀ k : Nat, ∀ c ∈ (sep ++ "_" ++ Nat.repr k).data, keepChar c = true := by
    intro k c hc
    simp only [String.data_append] at hc
    rcases List.mem_append.mp hc with hc | hc
    · rcases List.mem_append.mp hc with hc | hc
      · exact hsep c hc
      · simp only [List.mem_singleton] at hc
        subst hc
        decide
    · exact natRepr_chars_keep k c hc
  have hne : ∀ k : Nat, (sep ++ "_" ++ Nat.repr k).data ≠ [] := by
    intro k hk
    simp only [String.data_append, List.append_eq_nil] at hk
    exact absurd hk.1.2 (by decide)
  rw [sanitizeFilename_eq_self _ (hkeep (i + 1)) hi (hne (i + 1)),
    sanitizeFilename_eq_self _ (hkeep (j + 1)) hj (hne (j + 1))] at h
  have hd := congrArg String.data h
  simp only [String.data_append, List.append_assoc] at hd
  have hdat : (Nat.repr (i + 1)).data = (Nat.repr (j + 1)).data := by
    have h1 := List.append_cancel_left hd
    have h2 := List.append_cancel_left h1
    exact List.append_cancel_right h2
  have := natRepr_injective (i + 1) (j + 1) (String.ext hdat)
  omega

/-- Witness for `C9_distinct_paths_when_untruncated` with separator `S` and
section indices 0 and 1. -/
theorem C9_distinct_paths_when_untruncated_witness :
    ((∀ c ∈ ("S" : String).data, keepChar c = true) ∧
      ("S" ++ "_" ++ Nat.repr 1).length ≤ 80 ∧
      ("S" ++ "_" ++ Nat.repr 2).length ≤ 80 ∧ 0 ≠ 1) ∧
    outputFilename exDoc6 "S" 0 0 ≠ outputFilename exDoc6 "S" 1 0 :=
  ⟨⟨by decide, by decide, by decide, by decide⟩,
    C9_distinct_paths_when_untruncated exDoc6 "S" 0 1 0 0
      (by decide) (by decide) (by decide) (by decide)⟩

/-- Witness for `C4_sanitizer_output_chars` at the input `c` and its output
character `c`. -/
theorem C4_sanitizer_output_chars_witness :
    'c' ∈ (sanitizeFilename "c").data ∧ keepChar 'c' = true :=
  ⟨by decide, C4_sanitizer_output_chars "c" 'c' (by decide)⟩

end ArchiveDjango
